import Mathlib

/-!
Verification development for the JuiSip cloud-kitchen storefront.

The repository contains two React single-file apps sharing the same domain:
* `src/unnamed/part_001` — juice customization storefront (pricer,
  merge-on-add cart, quantity update / removal, Firestore cart listener);
  embedded below in namespace `Part1`.
* `src/src/JuiSipApp2.jsx` — cloud-kitchen menu app (cart totals with tax
  and delivery fee, retrying persistence writes, checkout into an order
  history, Firestore cart listener); embedded below in namespace `App2`.

Prices are modelled as rationals (the source manipulates decimal literals),
quantities as integers, strings as Lean strings.
-/

namespace Part1

/-- One entry of the additions catalog (`availableAdditions` in
`CustomizationForm`, part_001 lines 126–131): a name and a price. -/
structure Addition where
  name : String
  price : ℚ
deriving DecidableEq, Repr

/-- The additions catalog of part_001 lines 126–131. -/
def availableAdditions : List Addition :=
  [⟨"Protein Powder", 1.50⟩, ⟨"Chia Seeds", 0.75⟩,
   ⟨"Ginger Shot", 1.00⟩, ⟨"Spinach Boost", 0.50⟩]

/-- Embeds `calculateItemPrice` (part_001 lines 141–152): the addition cost
is the sum of the catalog prices of the additions whose name occurs in the
selection (`availableAdditions.filter(a => selectedAdditions.includes(a.name))
.reduce((sum, a) => sum + a.price, 0)`), adjusted by `+1.50` when the size is
`"Large"` and by `-0.50` when it is `"Small"`; the result is the base price
plus that cost.  No clamping is applied. -/
def calculateItemPrice (basePrice : ℚ) (selectedSize : String)
    (selectedAdditions : List String) : ℚ :=
  let additionCost :=
    ((availableAdditions.filter
        (fun a => decide (a.name ∈ selectedAdditions))).map (·.price)).sum
  let costAfterLarge :=
    if selectedSize = "Large" then additionCost + 1.50 else additionCost
  let costAfterSmall :=
    if selectedSize = "Small" then costAfterLarge - 0.50 else costAfterLarge
  basePrice + costAfterSmall

/-- Specification-side size delta: −0.50 for Small, 0 for Medium,
+1.50 for Large (and 0 for any other string, as in the source's
equality tests). -/
def sizeDelta (s : String) : ℚ :=
  if s = "Large" then 1.50 else if s = "Small" then -0.50 else 0

/-- Specification-side price of a single addition name: the catalog price
when the name is known, 0 otherwise (expressed as the sum of the prices of
catalog entries carrying that name). -/
def additionPrice (n : String) : ℚ :=
  ((availableAdditions.filter (fun a => decide (a.name = n))).map (·.price)).sum

/-- The sum of the prices of the filtered catalog rewritten as a sum of
`if`-guarded prices over the whole catalog. -/
lemma filter_map_sum_eq (p : Addition → Bool) (cat : List Addition) :
    ((cat.filter p).map (·.price)).sum
      = (cat.map (fun a => if p a then a.price else 0)).sum := by
  induction cat with
  | nil => simp
  | cons c cat ih =>
    by_cases h : p c <;> simp [List.filter_cons, h, ih]

/-- Pointwise sums of rationals over a list distribute. -/
lemma sum_map_add (f g : Addition → ℚ) (cat : List Addition) :
    (cat.map (fun a => f a + g a)).sum = (cat.map f).sum + (cat.map g).sum := by
  induction cat with
  | nil => simp
  | cons c cat ih =>
    simp [ih]
    ring

/-- Splitting the catalog sum over a selection `n :: adds` with `n ∉ adds`
into the contribution of `n` and the contribution of `adds`. -/
lemma sum_filter_mem_cons (cat : List Addition) (n : String)
    (adds : List String) (hn : n ∉ adds) :
    ((cat.filter (fun a => decide (a.name ∈ n :: adds))).map (·.price)).sum
      = ((cat.filter (fun a => decide (a.name = n))).map (·.price)).sum
        + ((cat.filter (fun a => decide (a.name ∈ adds))).map (·.price)).sum := by
  rw [filter_map_sum_eq, filter_map_sum_eq, filter_map_sum_eq, ← sum_map_add]
  refine congrArg List.sum (List.map_congr_left fun a _ => ?_)
  by_cases hA : a.name = n
  · subst hA
    simp [hn]
  · by_cases hB : a.name ∈ adds <;> simp [hA, hB]

/-- For a duplicate-free selection, the catalog-filtered sum computed by the
source equals the sum of the per-name prices of the selection. -/
lemma sum_filter_eq_sum_additionPrice (adds : List String) (h : adds.Nodup) :
    ((availableAdditions.filter
        (fun a => decide (a.name ∈ adds))).map (·.price)).sum
      = (adds.map additionPrice).sum := by
  induction adds with
  | nil => simp
  | cons n adds ih =>
    rcases List.nodup_cons.mp h with ⟨hn, hnd⟩
    rw [sum_filter_mem_cons availableAdditions n adds hn, ih hnd]
    rfl

/-- The pricer decomposes as base price + selection prices + size delta. -/
lemma calculateItemPrice_eq (basePrice : ℚ) (s : String)
    (adds : List String) (h : adds.Nodup) :
    calculateItemPrice basePrice s adds
      = basePrice + (adds.map additionPrice).sum + sizeDelta s := by
  unfold calculateItemPrice sizeDelta
  rw [sum_filter_eq_sum_additionPrice adds h]
  by_cases hL : s = "Large"
  · have hS : ¬ s = "Small" := by subst hL; decide
    simp [hL, hS]
    ring
  · by_cases hS : s = "Small"
    · simp [hL, hS]
      ring
    · simp [hL, hS]

/-- One cart line of part_001 (the object built in `handleSubmit`,
lines 160–172): a per-line unique `id`, the originating `juiceId`, the
display fields, the computed unit `price`, the `quantity`, and the
customization (`size`, `sweetness`, `additions`). -/
structure Item where
  id : String
  juiceId : String
  name : String
  basePrice : ℚ
  price : ℚ
  quantity : ℤ
  size : String
  sweetness : String
  additions : List String
  color : String
  image : String
deriving DecidableEq, Repr

/-- The merge predicate of `handleAddToCart` (part_001 lines 529–534): two
lines are equivalent when `juiceId`, `size`, `sweetness` agree and the
additions arrays are equal (`JSON.stringify(i.additions) ===
JSON.stringify(item.additions)`, which on arrays of strings is exactly
list equality, order included). -/
def equivItem (i j : Item) : Prop :=
  i.juiceId = j.juiceId ∧ i.size = j.size ∧ i.sweetness = j.sweetness
    ∧ i.additions = j.additions

instance (i j : Item) : Decidable (equivItem i j) := by
  unfold equivItem
  infer_instance

lemma equivItem_symm {i j : Item} (h : equivItem i j) : equivItem j i := by
  obtain ⟨h1, h2, h3, h4⟩ := h
  exact ⟨h1.symm, h2.symm, h3.symm, h4.symm⟩

lemma equivItem_trans {i j k : Item} (h : equivItem i j) (h2 : equivItem j k) :
    equivItem i k := by
  obtain ⟨a1, a2, a3, a4⟩ := h
  obtain ⟨b1, b2, b3, b4⟩ := h2
  exact ⟨a1.trans b1, a2.trans b2, a3.trans b3, a4.trans b4⟩

/-- Changing only the quantity of a line does not affect equivalence. -/
lemma equivItem_setQty_left (i j : Item) (q : ℤ) :
    equivItem { i with quantity := q } j ↔ equivItem i j := Iff.rfl

/-- Embeds `handleAddToCart` (part_001 lines 528–551): `findIndex` locates
the first line equivalent to the added item; if one exists its quantity is
incremented by `item.quantity` (all other lines unchanged), otherwise the
item is appended at the end. -/
def handleAddToCart : List Item → Item → List Item
  | [], item => [item]
  | i :: rest, item =>
      if equivItem i item then
        { i with quantity := i.quantity + item.quantity } :: rest
      else
        i :: handleAddToCart rest item

/-- Embeds `updateCartItemQuantity` (part_001 lines 554–561): map every line
with the given id to the new quantity, then drop every line whose quantity
is not positive (`.filter(item => item.quantity > 0)`). -/
def updateCartItemQuantity (items : List Item) (itemId : String)
    (newQuantity : ℤ) : List Item :=
  (items.map (fun i =>
      if i.id = itemId then { i with quantity := newQuantity } else i)).filter
    (fun i => decide (0 < i.quantity))

/-- Embeds `removeItemFromCart` (part_001 lines 564–568): keep every line
whose id differs from the given one. -/
def removeItemFromCart (items : List Item) (itemId : String) : List Item :=
  items.filter (fun i => decide (¬ i.id = itemId))

/-- Folding a sequence of `add` calls over a starting cart. -/
def addAll (items : List Item) (toAdd : List Item) : List Item :=
  toAdd.foldl handleAddToCart items

/-- The persisted cart document of part_001 (`initialCartState`,
lines 21–25, plus the `lastUpdated` stamp added on first-run
initialization at line 480). -/
structure CartState where
  items : List Item
  total : ℚ
  checkoutId : Option String
  lastUpdated : Option String
deriving Repr

/-- `initialCartState` of part_001 lines 21–25. -/
def initialCartState : CartState :=
  { items := [], total := 0, checkoutId := none, lastUpdated := none }

end Part1

/-- A document snapshot delivered by the store's subscription: either the
document is present with data, or it is absent (`docSnap.exists()` false). -/
inductive Snapshot (α : Type) where
  | present (d : α)
  | absent

/-- What a snapshot callback does: the cart state it installs, the list of
documents it writes back, and whether it flags an error.  (In both apps the
error callback of `onSnapshot` is a separate code path; the
present/absent branches never flag an error.) -/
structure SnapResult (σ : Type) where
  cart : σ
  writes : List σ
  errorFlagged : Bool
deriving Repr

namespace Part1

/-- Embeds the cart `onSnapshot` callback of part_001 (lines 472–495): a
present document installs its stored cart; an absent document installs
`{...initialCartState, lastUpdated: new Date()}` and writes that initial
cart back with `setDoc` (first-run bootstrap).  Neither branch flags an
error. -/
def onCartSnapshot (snap : Snapshot CartState) (nowTs : String) :
    SnapResult CartState :=
  match snap with
  | .present c => { cart := c, writes := [], errorFlagged := false }
  | .absent =>
      let ic := { initialCartState with lastUpdated := some nowTs }
      { cart := ic, writes := [ic], errorFlagged := false }

end Part1

namespace App2

/-- One cart line of JuiSipApp2: a menu item (`MENU_ITEMS`, lines 15–22)
together with the quantity added by the cart logic. -/
structure CItem where
  id : String
  name : String
  price : ℚ
  icon : String
  category : String
  quantity : ℤ
deriving DecidableEq, Repr

/-- Embeds `addToCart` (JuiSipApp2 lines 184–199): `findIndex` locates the
first line with the same menu `id`; if found its quantity is incremented by
1, otherwise the item is appended with `quantity: 1`. -/
def addToCart : List CItem → CItem → List CItem
  | [], item => [{ item with quantity := 1 }]
  | c :: rest, item =>
      if c.id = item.id then { c with quantity := c.quantity + 1 } :: rest
      else c :: addToCart rest item

/-- Embeds `updateQuantity` (JuiSipApp2 lines 201–212): add `change` to the
quantity of the line with the given id, then drop every line whose quantity
is not positive. -/
def updateQuantity (cart : List CItem) (itemId : String) (change : ℤ) :
    List CItem :=
  (cart.map (fun i =>
      if i.id = itemId then { i with quantity := i.quantity + change } else i)).filter
    (fun i => decide (0 < i.quantity))

/-- Embeds `removeFromCart` (JuiSipApp2 lines 214–218). -/
def removeFromCart (cart : List CItem) (itemId : String) : List CItem :=
  cart.filter (fun i => decide (¬ i.id = itemId))

/-- Embeds `clearCart` (JuiSipApp2 lines 220–223): the cart becomes empty. -/
def clearCart : List CItem := []

/-- Embeds `cartSubtotal` (JuiSipApp2 lines 228–231):
`cart.reduce((sum, item) => sum + item.price * item.quantity, 0)`. -/
def cartSubtotal (cart : List CItem) : ℚ :=
  (cart.map (fun i => i.price * (i.quantity : ℚ))).sum

/-- `taxRate` (JuiSipApp2 line 233). -/
def taxRate : ℚ := 0.08

/-- `taxAmount` (JuiSipApp2 line 234). -/
def taxAmount (cart : List CItem) : ℚ := cartSubtotal cart * taxRate

/-- `deliveryFee` (JuiSipApp2 line 235): 5.00 when the subtotal is
positive, else 0.00. -/
def deliveryFee (cart : List CItem) : ℚ :=
  if 0 < cartSubtotal cart then 5.00 else 0.00

/-- `grandTotal` (JuiSipApp2 line 236). -/
def grandTotal (cart : List CItem) : ℚ :=
  cartSubtotal cart + taxAmount cart + deliveryFee cart

/-- `maxRetries` of `updateCartInDb` (JuiSipApp2 line 161). -/
def maxRetries : ℕ := 3

/-- Outcome of one `updateCartInDb` call: whether some attempt succeeded,
whether a persistence failure was surfaced (`setError`, line 177), the
back-off sleeps performed (in milliseconds, in order), and how many write
attempts were made. -/
structure WriteResult where
  success : Bool
  errorSurfaced : Bool
  sleeps : List ℕ
  attempts : ℕ
deriving DecidableEq, Repr

/-- Embeds the retry loop of `updateCartInDb` (JuiSipApp2 lines 164–180),
parameterized by which attempt indices would succeed (`writeOk`).  A
successful attempt returns immediately; a failed attempt sleeps
`1000 * 2 ^ attempt` ms and retries while `attempt < maxRetries - 1`,
and surfaces the failure after the final attempt (no sleep follows it).
The fuel argument starts at `maxRetries` and bounds the iteration count
exactly as the `for` loop does. -/
def writeLoop (writeOk : ℕ → Bool) : ℕ → ℕ → WriteResult
  | 0, attempt => { success := false, errorSurfaced := false, sleeps := [], attempts := attempt }
  | fuel + 1, attempt =>
      if writeOk attempt then
        { success := true, errorSurfaced := false, sleeps := [], attempts := attempt + 1 }
      else if attempt < maxRetries - 1 then
        let r := writeLoop writeOk fuel (attempt + 1)
        { r with sleeps := 1000 * 2 ^ attempt :: r.sleeps }
      else
        { success := false, errorSurfaced := true, sleeps := [], attempts := attempt + 1 }

/-- Embeds `updateCartInDb` (JuiSipApp2 lines 157–181): run the retry loop
from attempt 0.  The function never touches the in-memory cart (`setCart`
is not called on any path), so the cart is not rolled back on failure. -/
def updateCartInDb (writeOk : ℕ → Bool) : WriteResult :=
  writeLoop writeOk maxRetries 0

/-- The add-then-persist flow of the UI commands (e.g. `addToCart`,
JuiSipApp2 lines 184–199: `setCart(newCart); updateCartInDb(newCart)`):
the in-memory cart takes the optimistic post-mutation value and the write
outcome is whatever the retry loop produces; no path of `updateCartInDb`
writes the cart state back. -/
def addToCartFlow (cart : List CItem) (item : CItem) (writeOk : ℕ → Bool) :
    List CItem × WriteResult :=
  (addToCart cart item, updateCartInDb writeOk)

/-- One order document written at checkout (`orderData`, JuiSipApp2 lines
487–497). -/
structure Order where
  orderId : ℤ
  userId : String
  items : List CItem
  grandTotal : ℚ
  subtotal : ℚ
  deliveryFee : ℚ
  taxAmount : ℚ
  placedAt : String
  status : String
deriving DecidableEq, Repr

/-- How a `handlePlaceOrder` call ends: the silent early `return` of the
guard (line 481, no error surfaced), a placed order, or the `catch` branch
that surfaces a database error (`setError`, line 514). -/
inductive Outcome where
  | silentReturn
  | placed
  | dbError
deriving DecidableEq, Repr

/-- True exactly for the outcome that surfaces an explicit failure to the
caller (the `setError` path); the guard's early `return` is silent. -/
def isExplicitFailure : Outcome → Bool
  | .dbError => true
  | _ => false

/-- Result of a `handlePlaceOrder` call: outcome, resulting cart and
resulting history collection. -/
structure CheckoutResult where
  outcome : Outcome
  cart : List CItem
  history : List Order
deriving DecidableEq, Repr

/-- Embeds `handlePlaceOrder` (JuiSipApp2 lines 480–518).  The guard
`if (!cart.length || grandTotal === 0 || !db || !userId) return;` gives up
silently (nothing written, nothing surfaced); `dbReady` models `db` and
`userId` being available.  Otherwise the order document is appended to the
history collection (`addDoc`) and the cart is cleared via
`updateCartInDb([])`; if the history write throws, the `catch` branch
surfaces a database error and neither cart nor history changes
(`updateCartInDb` catches its own failures and never throws, so only the
`addDoc` call can reach the `catch`). -/
def handlePlaceOrder (cart : List CItem) (history : List Order)
    (dbReady : Bool) (userId : String) (orderId : ℤ) (now : String)
    (histWriteOk : Bool) : CheckoutResult :=
  if cart.length = 0 ∨ grandTotal cart = 0 ∨ dbReady = false then
    { outcome := .silentReturn, cart := cart, history := history }
  else
    let orderData : Order :=
      { orderId := orderId, userId := userId, items := cart,
        grandTotal := grandTotal cart, subtotal := cartSubtotal cart,
        deliveryFee := deliveryFee cart, taxAmount := taxAmount cart,
        placedAt := now, status := "Preparing" }
    if histWriteOk then
      { outcome := .placed, cart := [], history := history ++ [orderData] }
    else
      { outcome := .dbError, cart := cart, history := history }

/-- Embeds the cart `onSnapshot` callback of JuiSipApp2 (lines 98–116): a
present document installs the parse of its `itemsJson` (modelled as
`some items` on parse success and `none` on a parse error, which resets the
cart to `[]` without crashing); an absent document installs the empty cart
and issues no write.  Neither branch flags an error (the error callback at
line 113 is a separate path for subscription errors). -/
def onCartSnapshot (snap : Snapshot (Option (List CItem))) :
    SnapResult (List CItem) :=
  match snap with
  | .present (some items) => { cart := items, writes := [], errorFlagged := false }
  | .present none => { cart := [], writes := [], errorFlagged := false }
  | .absent => { cart := [], writes := [], errorFlagged := false }

end App2

namespace Part1

/-- The lines of a cart belonging to the equivalence class of `rep`. -/
def classItems (l : List Item) (rep : Item) : List Item :=
  l.filter (fun i => decide (equivItem i rep))

/-- When no existing line is equivalent to the added item, `handleAddToCart`
appends it. -/
lemma handleAdd_not_equiv (items : List Item) (item : Item)
    (h : ∀ i ∈ items, ¬ equivItem i item) :
    handleAddToCart items item = items ++ [item] := by
  induction items with
  | nil => rfl
  | cons i rest ih =>
    simp only [handleAddToCart]
    rw [if_neg (h i (List.mem_cons_self i rest)),
      ih (fun j hj => h j (List.mem_cons_of_mem i hj))]
    simp

/-- Every line of the cart after an `add` is either an untouched original
line, an original line with its quantity incremented, or the added item. -/
lemma mem_handleAdd {j : Item} (items : List Item) (item : Item)
    (h : j ∈ handleAddToCart items item) :
    (∃ j0 ∈ items,
        j = j0 ∨ j = { j0 with quantity := j0.quantity + item.quantity })
      ∨ j = item := by
  induction items with
  | nil =>
    right
    simpa [handleAddToCart] using h
  | cons i rest ih =>
    by_cases hm : equivItem i item
    · simp only [handleAddToCart, if_pos hm] at h
      rcases List.mem_cons.mp h with h | h
      · exact Or.inl ⟨i, List.mem_cons_self i rest, Or.inr h⟩
      · exact Or.inl ⟨j, List.mem_cons_of_mem i h, Or.inl rfl⟩
    · simp only [handleAddToCart, if_neg hm] at h
      rcases List.mem_cons.mp h with h | h
      · exact Or.inl ⟨i, List.mem_cons_self i rest, Or.inl h⟩
      · rcases ih h with ⟨j0, hj0, hor⟩ | h
        · exact Or.inl ⟨j0, List.mem_cons_of_mem i hj0, hor⟩
        · exact Or.inr h

/-- The total quantity held by the class of `rep` after an `add`: it grows
by the added quantity exactly when the added item belongs to the class. -/
lemma classItems_handleAdd_qty (items : List Item) (item rep : Item) :
    ((classItems (handleAddToCart items item) rep).map (·.quantity)).sum
      = ((classItems items rep).map (·.quantity)).sum
        + (if equivItem item rep then item.quantity else 0) := by
  induction items with
  | nil =>
    by_cases h : equivItem item rep <;>
      simp [handleAddToCart, classItems, h]
  | cons i rest ih =>
    by_cases hm : equivItem i item
    · have hiff : equivItem i rep ↔ equivItem item rep :=
        ⟨fun h => equivItem_trans (equivItem_symm hm) h,
         fun h => equivItem_trans hm h⟩
      by_cases hrep : equivItem item rep
      · have hirep : equivItem i rep := hiff.mpr hrep
        simp only [handleAddToCart, if_pos hm, classItems, List.filter_cons]
        simp [equivItem_setQty_left, hirep, hrep]
        ring
      · have hirep : ¬ equivItem i rep := fun h => hrep (hiff.mp h)
        simp only [handleAddToCart, if_pos hm, classItems, List.filter_cons]
        simp [equivItem_setQty_left, hirep, hrep]
    · by_cases hirep : equivItem i rep
      · simp only [handleAddToCart, if_neg hm, classItems, List.filter_cons]
        simp only [classItems] at ih
        simp [hirep, ih]
        ring
      · simp only [handleAddToCart, if_neg hm, classItems, List.filter_cons]
        simp only [classItems] at ih
        simp [hirep, ih]

/-- The number of lines in the class of `rep` after adding an item of that
class: one line is created when the class was empty, otherwise the count is
unchanged (the existing line is merged into). -/
lemma classItems_handleAdd_len (items : List Item) (item rep : Item)
    (hrep : equivItem item rep) :
    (classItems (handleAddToCart items item) rep).length
      = if (classItems items rep).length = 0 then 1
        else (classItems items rep).length := by
  induction items with
  | nil => simp [handleAddToCart, classItems, hrep]
  | cons i rest ih =>
    by_cases hm : equivItem i item
    · have hirep : equivItem i rep := equivItem_trans hm hrep
      simp only [handleAddToCart, if_pos hm, classItems, List.filter_cons]
      simp [equivItem_setQty_left, hirep]
    · have hirep : ¬ equivItem i rep :=
        fun h => hm (equivItem_trans h (equivItem_symm hrep))
      simp only [handleAddToCart, if_neg hm, classItems, List.filter_cons]
      simp only [classItems] at ih
      simp [hirep, ih]

/-- Folding a sequence of class-`rep` adds accumulates the class quantity. -/
lemma addAll_classQty (rep : Item) (adds : List Item) :
    ∀ items, (∀ a ∈ adds, equivItem a rep) →
      ((classItems (addAll items adds) rep).map (·.quantity)).sum
        = ((classItems items rep).map (·.quantity)).sum
          + (adds.map (·.quantity)).sum := by
  induction adds with
  | nil =>
    intro items _
    simp [addAll]
  | cons a rest ih =>
    intro items h
    have ha : equivItem a rep := h a (List.mem_cons_self a rest)
    have hstep := classItems_handleAdd_qty items a rep
    rw [if_pos ha] at hstep
    have htail := ih (handleAddToCart items a)
      (fun b hb => h b (List.mem_cons_of_mem a hb))
    have hfold : addAll items (a :: rest) = addAll (handleAddToCart items a) rest := rfl
    rw [hfold, htail, hstep]
    simp
    ring

/-- A nonempty sequence of class-`rep` adds leaves exactly one line of the
class, provided the starting cart held at most one. -/
lemma addAll_classLen_one (rep : Item) :
    ∀ adds : List Item, adds ≠ [] →
      ∀ items, (∀ a ∈ adds, equivItem a rep) →
        (classItems items rep).length ≤ 1 →
        (classItems (addAll items adds) rep).length = 1 := by
  intro adds
  induction adds with
  | nil => intro h; exact absurd rfl h
  | cons a rest ih =>
    intro _ items h hle
    have ha : equivItem a rep := h a (List.mem_cons_self a rest)
    have hstep := classItems_handleAdd_len items a rep ha
    by_cases hr : rest = []
    · subst hr
      show (classItems (handleAddToCart items a) rep).length = 1
      rw [hstep]
      split <;> omega
    · have hfold : addAll items (a :: rest) = addAll (handleAddToCart items a) rest := rfl
      rw [hfold]
      refine ih hr (handleAddToCart items a)
        (fun b hb => h b (List.mem_cons_of_mem a hb)) ?_
      rw [hstep]
      split <;> omega

/-- In a cart with no two equivalent lines, each equivalence class holds at
most one line. -/
lemma classItems_len_le_one (l : List Item) (rep : Item)
    (h : l.Pairwise (fun i j => ¬ equivItem i j)) :
    (classItems l rep).length ≤ 1 := by
  rcases hcl : classItems l rep with _ | ⟨x, _ | ⟨y, t⟩⟩
  · simp
  · simp
  · exfalso
    have hpw : (classItems l rep).Pairwise (fun i j => ¬ equivItem i j) :=
      h.filter _
    rw [hcl] at hpw
    have hxy : ¬ equivItem x y :=
      (List.pairwise_cons.mp hpw).1 y (List.mem_cons_self y t)
    have hx : x ∈ classItems l rep := by
      rw [hcl]; exact List.mem_cons_self _ _
    have hy : y ∈ classItems l rep := by
      rw [hcl]; exact List.mem_cons_of_mem _ (List.mem_cons_self _ _)
    have hxrep : equivItem x rep :=
      of_decide_eq_true (List.mem_filter.mp hx).2
    have hyrep : equivItem y rep :=
      of_decide_eq_true (List.mem_filter.mp hy).2
    exact hxy (equivItem_trans hxrep (equivItem_symm hyrep))

end Part1

namespace Part1

/-- The cart invariant of the spec's Cart Aggregate: no two lines are
equivalent, and every line has quantity at least 1. -/
def CartInv (l : List Item) : Prop :=
  l.Pairwise (fun i j => ¬ equivItem i j) ∧ ∀ i ∈ l, 1 ≤ i.quantity

/-- `handleAddToCart` preserves pairwise non-equivalence. -/
lemma handleAdd_pairwise (items : List Item) (item : Item)
    (h : items.Pairwise (fun i j => ¬ equivItem i j)) :
    (handleAddToCart items item).Pairwise (fun i j => ¬ equivItem i j) := by
  induction items with
  | nil => simp [handleAddToCart]
  | cons i rest ih =>
    rcases List.pairwise_cons.mp h with ⟨hhead, htail⟩
    by_cases hm : equivItem i item
    · simp only [handleAddToCart, if_pos hm]
      refine List.pairwise_cons.mpr ⟨?_, htail⟩
      intro j hj
      exact hhead j hj
    · simp only [handleAddToCart, if_neg hm]
      refine List.pairwise_cons.mpr ⟨?_, ih htail⟩
      intro j hj
      rcases mem_handleAdd rest item hj with ⟨j0, hj0, hor | hor⟩ | hj0
      · rw [hor]
        exact hhead j0 hj0
      · rw [hor]
        exact hhead j0 hj0
      · rw [hj0]
        exact hm

/-- `handleAddToCart` preserves positive quantities when the added item has
a positive quantity. -/
lemma handleAdd_qty (items : List Item) (item : Item)
    (h : ∀ i ∈ items, 1 ≤ i.quantity) (hitem : 1 ≤ item.quantity) :
    ∀ j ∈ handleAddToCart items item, 1 ≤ j.quantity := by
  intro j hj
  rcases mem_handleAdd items item hj with ⟨j0, hj0, hor | hor⟩ | hj0
  · rw [hor]
    exact h j0 hj0
  · rw [hor]
    show 1 ≤ j0.quantity + item.quantity
    have := h j0 hj0
    omega
  · rw [hj0]
    exact hitem

/-- The per-line update of `updateCartItemQuantity` (set the quantity of
the matching line) does not affect equivalence. -/
lemma equivItem_updateF (itemId : String) (q : ℤ) (a b : Item) :
    equivItem (if a.id = itemId then { a with quantity := q } else a)
        (if b.id = itemId then { b with quantity := q } else b)
      ↔ equivItem a b := by
  by_cases ha : a.id = itemId <;> by_cases hb : b.id = itemId <;>
    simp [ha, hb, equivItem]

/-- `updateCartItemQuantity` preserves the cart invariant (for any
requested quantity: non-positive results are filtered out). -/
lemma updateQty_cartInv (items : List Item) (itemId : String) (q : ℤ)
    (h : items.Pairwise (fun i j => ¬ equivItem i j)) :
    CartInv (updateCartItemQuantity items itemId q) := by
  constructor
  · unfold updateCartItemQuantity
    refine List.Pairwise.filter _ ?_
    refine List.pairwise_map.mpr ?_
    exact h.imp fun hab hc => hab ((equivItem_updateF itemId q _ _).mp hc)
  · intro i hi
    unfold updateCartItemQuantity at hi
    have := (List.mem_filter.mp hi).2
    have hpos : 0 < i.quantity := of_decide_eq_true this
    omega

/-- `removeItemFromCart` preserves the cart invariant. -/
lemma remove_cartInv (items : List Item) (itemId : String)
    (h : CartInv items) : CartInv (removeItemFromCart items itemId) := by
  constructor
  · exact h.1.filter _
  · intro i hi
    exact h.2 i (List.mem_of_mem_filter hi)

/-- With all quantities positive, setting a non-positive quantity on a line
is the same as removing it. -/
lemma updateQty_nonpos_eq_remove (items : List Item) (itemId : String)
    (q : ℤ) (hq : q ≤ 0) (hpos : ∀ i ∈ items, 0 < i.quantity) :
    updateCartItemQuantity items itemId q = removeItemFromCart items itemId := by
  induction items with
  | nil => rfl
  | cons i rest ih =>
    have hrest : ∀ j ∈ rest, 0 < j.quantity :=
      fun j hj => hpos j (List.mem_cons_of_mem i hj)
    have hih := ih hrest
    unfold updateCartItemQuantity removeItemFromCart at hih ⊢
    by_cases hid : i.id = itemId
    · have hnq : ¬ 0 < q := by omega
      simp [List.filter_cons, hid, hnq, hih]
    · have hq : 0 < i.quantity := hpos i (List.mem_cons_self i rest)
      simp [List.filter_cons, hid, hq, hih]

/-- With all quantities positive and the id absent, `updateCartItemQuantity`
is a no-op. -/
lemma updateQty_absent (items : List Item) (itemId : String) (q : ℤ)
    (habs : itemId ∉ items.map Item.id)
    (hpos : ∀ i ∈ items, 0 < i.quantity) :
    updateCartItemQuantity items itemId q = items := by
  unfold updateCartItemQuantity
  have hmap : items.map (fun i =>
      if i.id = itemId then { i with quantity := q } else i) = items := by
    have : ∀ i ∈ items,
        (if i.id = itemId then { i with quantity := q } else i) = i := by
      intro i hi
      have : i.id ≠ itemId := by
        intro hc
        exact habs (hc ▸ List.mem_map_of_mem Item.id hi)
      simp [this]
    calc items.map (fun i => if i.id = itemId then { i with quantity := q } else i)
        = items.map id := List.map_congr_left fun i hi => this i hi
      _ = items := List.map_id items
  rw [hmap]
  refine List.filter_eq_self.mpr ?_
  intro i hi
  exact decide_eq_true (hpos i hi)

/-- With the id absent, `removeItemFromCart` is a no-op. -/
lemma remove_absent (items : List Item) (itemId : String)
    (habs : itemId ∉ items.map Item.id) :
    removeItemFromCart items itemId = items := by
  unfold removeItemFromCart
  refine List.filter_eq_self.mpr ?_
  intro i hi
  have : i.id ≠ itemId := by
    intro hc
    exact habs (hc ▸ List.mem_map_of_mem Item.id hi)
  exact decide_eq_true this

end Part1

namespace App2

/-- The JuiSipApp2 cart invariant: no two lines share a menu id (the merge
key of its `addToCart`), and every line has quantity at least 1. -/
def CartInv (l : List CItem) : Prop :=
  l.Pairwise (fun i j => ¬ i.id = j.id) ∧ ∀ i ∈ l, 1 ≤ i.quantity

/-- The per-line update of `updateQuantity` does not change the id. -/
lemma updateQuantity_id (itemId : String) (change : ℤ) (a : CItem) :
    (if a.id = itemId then { a with quantity := a.quantity + change } else a).id
      = a.id := by
  by_cases ha : a.id = itemId <;> simp [ha]

/-- `updateQuantity` preserves the JuiSipApp2 cart invariant. -/
lemma updateQuantity_cartInv (cart : List CItem) (itemId : String)
    (change : ℤ) (h : cart.Pairwise (fun i j => ¬ i.id = j.id)) :
    CartInv (updateQuantity cart itemId change) := by
  constructor
  · unfold updateQuantity
    refine List.Pairwise.filter _ ?_
    refine List.pairwise_map.mpr ?_
    refine h.imp fun hab hc => hab ?_
    rwa [updateQuantity_id, updateQuantity_id] at hc
  · intro i hi
    unfold updateQuantity at hi
    have := (List.mem_filter.mp hi).2
    have hpos : 0 < i.quantity := of_decide_eq_true this
    omega

end App2

/-- Claim C2: for every catalog item, selected size, and selected additions
(a set, hence duplicate-free), the unit price computed by
`calculateItemPrice` equals basePrice plus the sum of the selected
additions' prices plus a size delta of −0.50 for Small, 0 for Medium and
+1.50 for Large; no lower clamp is applied, so the result may be negative.
In particular basePrice 5.99 with size Large and no additions prices at
7.49, and quantity 2 contributes 14.98. -/
theorem claim_C2 :
    (∀ (basePrice : ℚ) (s : String) (adds : List String), adds.Nodup →
        Part1.calculateItemPrice basePrice s adds
          = basePrice + (adds.map Part1.additionPrice).sum + Part1.sizeDelta s)
    ∧ Part1.sizeDelta "Small" = -0.50
    ∧ Part1.sizeDelta "Medium" = 0
    ∧ Part1.sizeDelta "Large" = 1.50
    ∧ Part1.calculateItemPrice 5.99 "Large" [] = 7.49
    ∧ Part1.calculateItemPrice 5.99 "Large" [] * 2 = 14.98
    ∧ Part1.calculateItemPrice 0 "Small" [] < 0 := by
  refine ⟨Part1.calculateItemPrice_eq, ?_, ?_, ?_, ?_, ?_, ?_⟩ <;>
    · simp [Part1.calculateItemPrice, Part1.sizeDelta,
        Part1.availableAdditions, String.reduceEq]
      try norm_num

/-- Witness for C2: the decomposition evaluated at a concrete duplicate-free
selection. -/
theorem claim_C2_witness :
    Part1.calculateItemPrice 6.80 "Small" ["Ginger Shot", "Chia Seeds"]
      = 6.80 + ((["Ginger Shot", "Chia Seeds"].map Part1.additionPrice).sum)
        + Part1.sizeDelta "Small" :=
  claim_C2.1 6.80 "Small" ["Ginger Shot", "Chia Seeds"] (by decide)

/-- Claim C3: for every cart, subtotal is the sum of unitPrice×quantity,
tax is subtotal×0.08, the delivery fee is 0 at subtotal 0 and 5.00 for
positive subtotal, and the grand total is their sum; at subtotal 10.00 the
tax is 0.80 and the grand total 15.80. -/
theorem claim_C3 (cart : List App2.CItem) :
    App2.cartSubtotal cart = (cart.map (fun i => i.price * (i.quantity : ℚ))).sum
    ∧ App2.taxAmount cart = App2.cartSubtotal cart * 0.08
    ∧ (App2.cartSubtotal cart = 0 → App2.deliveryFee cart = 0)
    ∧ (0 < App2.cartSubtotal cart → App2.deliveryFee cart = 5.00)
    ∧ App2.grandTotal cart
        = App2.cartSubtotal cart + App2.taxAmount cart + App2.deliveryFee cart
    ∧ (App2.cartSubtotal cart = 10 →
        App2.taxAmount cart = 0.80 ∧ App2.grandTotal cart = 15.80) := by
  refine ⟨rfl, rfl, ?_, ?_, rfl, ?_⟩
  · intro h
    rw [App2.deliveryFee, h]
    norm_num
  · intro h
    rw [App2.deliveryFee, if_pos h]
  · intro h
    constructor
    · rw [App2.taxAmount, h]
      norm_num [App2.taxRate]
    · rw [App2.grandTotal, App2.taxAmount, App2.deliveryFee, h]
      norm_num [App2.taxRate]

/-- A concrete cart with subtotal 10.00 (price 5.00, quantity 2). -/
def cart10 : List App2.CItem :=
  [{ id := "1", name := "Zesty Lemonade", price := 5, icon := "L",
     category := "Drinks", quantity := 2 }]

/-- Witness for C3: the scenario instantiated on a concrete cart whose
subtotal is 10.00. -/
theorem claim_C3_witness :
    App2.taxAmount cart10 = 0.80 ∧ App2.grandTotal cart10 = 15.80 :=
  (claim_C3 cart10).2.2.2.2.2
    (by norm_num [App2.cartSubtotal, cart10])

/-- Claim C10: the additions catalog is exactly Protein Powder 1.50,
Chia Seeds 0.75, Ginger Shot 1.00, Spinach Boost 0.50; only names in it
contribute to the unit price, and an unrecognized addition name contributes
exactly zero (prepending it leaves the computed price unchanged), so the
pricer is total over arbitrary string lists. -/
theorem claim_C10 :
    Part1.availableAdditions
        = [⟨"Protein Powder", 1.50⟩, ⟨"Chia Seeds", 0.75⟩,
           ⟨"Ginger Shot", 1.00⟩, ⟨"Spinach Boost", 0.50⟩]
    ∧ ∀ (basePrice : ℚ) (s : String) (adds : List String) (x : String),
        x ∉ Part1.availableAdditions.map Part1.Addition.name →
        Part1.calculateItemPrice basePrice s (x :: adds)
          = Part1.calculateItemPrice basePrice s adds := by
  refine ⟨rfl, ?_⟩
  intro basePrice s adds x hx
  unfold Part1.calculateItemPrice
  have hfil : Part1.availableAdditions.filter
        (fun a => decide (a.name ∈ x :: adds))
      = Part1.availableAdditions.filter (fun a => decide (a.name ∈ adds)) := by
    refine List.filter_congr fun a ha => ?_
    have hax : a.name ≠ x := by
      intro hc
      exact hx (hc ▸ List.mem_map_of_mem Part1.Addition.name ha)
    simp [List.mem_cons, hax]
  rw [hfil]

/-- Witness for C10: an unknown addition name priced at a concrete input. -/
theorem claim_C10_witness :
    Part1.calculateItemPrice 5 "Medium" ["Bubble Tea"]
      = Part1.calculateItemPrice 5 "Medium" [] :=
  claim_C10.2 5 "Medium" [] "Bubble Tea" (by decide)

/-- Claim C6: on any cart whose lines all have positive quantity,
`setQuantity(lineId, 0)` (`updateCartItemQuantity`) yields the same cart as
`remove(lineId)` (`removeItemFromCart`); more generally any newQuantity ≤ 0
removes the line; and both operations are no-ops (not errors) when the
lineId is absent. -/
theorem claim_C6 (items : List Part1.Item) (itemId : String)
    (hpos : ∀ i ∈ items, 0 < i.quantity) :
    Part1.updateCartItemQuantity items itemId 0
        = Part1.removeItemFromCart items itemId
    ∧ (∀ q : ℤ, q ≤ 0 →
        Part1.updateCartItemQuantity items itemId q
          = Part1.removeItemFromCart items itemId)
    ∧ (itemId ∉ items.map Part1.Item.id →
        (∀ q : ℤ, Part1.updateCartItemQuantity items itemId q = items)
        ∧ Part1.removeItemFromCart items itemId = items) := by
  refine ⟨?_, ?_, ?_⟩
  · exact Part1.updateQty_nonpos_eq_remove items itemId 0 le_rfl hpos
  · intro q hq
    exact Part1.updateQty_nonpos_eq_remove items itemId q hq hpos
  · intro habs
    exact ⟨fun q => Part1.updateQty_absent items itemId q habs hpos,
      Part1.remove_absent items itemId habs⟩

/-- A concrete two-line cart used to instantiate C6. -/
def cartC6 : List Part1.Item :=
  [{ id := "line-1", juiceId := "fresh-orange", name := "Fresh Orange",
     basePrice := 5.50, price := 5.50, quantity := 2, size := "Medium",
     sweetness := "Regular", additions := [], color := "bg-orange-400",
     image := "O" },
   { id := "line-2", juiceId := "berry-blast", name := "Berry Blast",
     basePrice := 6.00, price := 6.00, quantity := 1, size := "Small",
     sweetness := "Low", additions := ["Chia Seeds"], color := "bg-red-400",
     image := "B" }]

/-- Witness for C6: setting quantity 0 on a concrete cart equals removal. -/
theorem claim_C6_witness :
    Part1.updateCartItemQuantity cartC6 "line-1" 0
      = Part1.removeItemFromCart cartC6 "line-1" :=
  (claim_C6 cartC6 "line-1" (by decide)).1

/-- Claim C8: every cart operation — part_001's `handleAddToCart` (with the
caller-validated positive quantity), `updateCartItemQuantity` and
`removeItemFromCart`, JuiSipApp2's `updateQuantity`, and `clearCart` —
preserves the cart invariant: no two lines of the sequence are equivalent
(for JuiSipApp2, share a menu id), and every line has quantity ≥ 1
(zero-quantity lines are removed, never retained). -/
theorem claim_C8 (items : List Part1.Item) (cart : List App2.CItem)
    (hinv : Part1.CartInv items)
    (hinv2 : App2.CartInv cart) :
    (∀ item : Part1.Item, 1 ≤ item.quantity →
        Part1.CartInv (Part1.handleAddToCart items item))
    ∧ (∀ (itemId : String) (q : ℤ),
        Part1.CartInv (Part1.updateCartItemQuantity items itemId q))
    ∧ (∀ itemId : String,
        Part1.CartInv (Part1.removeItemFromCart items itemId))
    ∧ (∀ (itemId : String) (change : ℤ),
        App2.CartInv (App2.updateQuantity cart itemId change))
    ∧ App2.CartInv App2.clearCart := by
  refine ⟨?_, ?_, ?_, ?_, ?_⟩
  · intro item hq
    exact ⟨Part1.handleAdd_pairwise items item hinv.1,
      Part1.handleAdd_qty items item hinv.2 hq⟩
  · intro itemId q
    exact Part1.updateQty_cartInv items itemId q hinv.1
  · intro itemId
    exact Part1.remove_cartInv items itemId hinv
  · intro itemId change
    exact App2.updateQuantity_cartInv cart itemId change hinv2.1
  · exact ⟨List.Pairwise.nil, by simp [App2.clearCart]⟩

/-- Witness for C8: the invariant holds after adding a line equivalent to
an existing one on a concrete invariant-satisfying cart. -/
theorem claim_C8_witness :
    Part1.CartInv (Part1.handleAddToCart cartC6
      { id := "line-3", juiceId := "fresh-orange", name := "Fresh Orange",
        basePrice := 5.50, price := 5.50, quantity := 3, size := "Medium",
        sweetness := "Regular", additions := [], color := "bg-orange-400",
        image := "O" }) :=
  (claim_C8 cartC6 cart10
      ⟨by simp [cartC6, Part1.equivItem, String.reduceEq], by decide⟩
      ⟨by simp [cart10], by decide⟩).1
    _ (by decide)

/-- A cart line already present for C1's counterexample (quantity 5). -/
def c1a : Part1.Item :=
  { id := "pre-existing", juiceId := "fresh-orange", name := "Fresh Orange",
    basePrice := 5.50, price := 5.50, quantity := 5, size := "Medium",
    sweetness := "Regular", additions := [], color := "bg-orange-400",
    image := "O" }

/-- An added line equivalent to `c1a` for C1's counterexample (quantity 1). -/
def c1b : Part1.Item :=
  { id := "added", juiceId := "fresh-orange", name := "Fresh Orange",
    basePrice := 5.50, price := 5.50, quantity := 1, size := "Medium",
    sweetness := "Regular", additions := [], color := "bg-orange-400",
    image := "O" }

/-- Counterexample to C1 as stated: the cart `[c1a]` satisfies the
no-duplicates invariant and already holds a line of the added item's
equivalence class with quantity 5; after the one-element add sequence
`[c1b]` the class line's quantity is 6, not the sum 1 of the added
quantities. -/
theorem claim_C1_cex :
    [c1a].Pairwise (fun i j => ¬ Part1.equivItem i j)
    ∧ (∀ a ∈ [c1b], Part1.equivItem a c1b)
    ∧ ((Part1.classItems (Part1.addAll [c1a] [c1b]) c1b).map (·.quantity)).sum = 6
    ∧ ([c1b].map (·.quantity)).sum = 1
    ∧ ((Part1.classItems (Part1.addAll [c1a] [c1b]) c1b).map (·.quantity)).sum
        ≠ ([c1b].map (·.quantity)).sum := by
  refine ⟨by decide, by decide, ?_, by decide, ?_⟩ <;>
    · simp [Part1.classItems, Part1.addAll, Part1.handleAddToCart,
        c1a, c1b, Part1.equivItem]

/-- Claim C1 (amended): for every sequence of `add` calls whose items are
pairwise equivalent (all equivalent to a representative `rep`), starting
from any cart satisfying the no-duplicates invariant and containing no
line of `rep`'s equivalence class, the resulting cart contains exactly one
line of that class and its quantity is the sum of the added quantities;
a non-equivalent item is appended as a new line. -/
theorem claim_C1 :
    (∀ (start adds : List Part1.Item) (rep : Part1.Item),
        start.Pairwise (fun i j => ¬ Part1.equivItem i j) →
        (∀ a ∈ adds, Part1.equivItem a rep) →
        (∀ i ∈ start, ¬ Part1.equivItem i rep) →
        adds ≠ [] →
        (Part1.classItems (Part1.addAll start adds) rep).length = 1
        ∧ ((Part1.classItems (Part1.addAll start adds) rep).map (·.quantity)).sum
            = (adds.map (·.quantity)).sum)
    ∧ (∀ (items : List Part1.Item) (item : Part1.Item),
        (∀ i ∈ items, ¬ Part1.equivItem i item) →
        Part1.handleAddToCart items item = items ++ [item]) := by
  constructor
  · intro start adds rep hpw hadds hstart hne
    have hle := Part1.classItems_len_le_one start rep hpw
    have hz : Part1.classItems start rep = [] := by
      refine List.filter_eq_nil_iff.mpr ?_
      intro i hi
      simpa using hstart i hi
    constructor
    · exact Part1.addAll_classLen_one rep adds hne start hadds hle
    · have h := Part1.addAll_classQty rep adds start hadds
      rw [hz] at h
      simpa using h
  · exact Part1.handleAdd_not_equiv

/-- Witness for C1 (amended): adding `c1b` twice to the empty cart leaves
exactly one line of its class carrying quantity 2. -/
theorem claim_C1_witness :
    (Part1.classItems (Part1.addAll [] [c1b, c1b]) c1b).length = 1
    ∧ ((Part1.classItems (Part1.addAll [] [c1b, c1b]) c1b).map (·.quantity)).sum
        = ([c1b, c1b].map (·.quantity)).sum :=
  claim_C1.1 [] [c1b, c1b] c1b List.Pairwise.nil (by decide) (by simp)
    (by simp)

/-- A line in the cart for C7's counterexample: additions listed as
Protein Powder before Chia Seeds. -/
def c7a : Part1.Item :=
  { id := "line-x", juiceId := "green-detox", name := "Green Detox",
    basePrice := 6.80, price := 6.80, quantity := 1, size := "Medium",
    sweetness := "Regular", additions := ["Protein Powder", "Chia Seeds"],
    color := "bg-green-400", image := "G" }

/-- The same customization with the additions toggled in the other order. -/
def c7b : Part1.Item :=
  { id := "line-y", juiceId := "green-detox", name := "Green Detox",
    basePrice := 6.80, price := 6.80, quantity := 1, size := "Medium",
    sweetness := "Regular", additions := ["Chia Seeds", "Protein Powder"],
    color := "bg-green-400", image := "G" }

/-- Counterexample to C7 as stated: `c7a` and `c7b` agree on catalog item,
size and sweetness and their additions are permutations of each other
(equal as sets), yet `add` does not merge — it appends a second line,
because the merge predicate compares the JSON-stringified additions arrays,
which is order-sensitive. -/
theorem claim_C7_cex :
    c7a.juiceId = c7b.juiceId
    ∧ c7a.size = c7b.size
    ∧ c7a.sweetness = c7b.sweetness
    ∧ c7a.additions.Perm c7b.additions
    ∧ c7a.additions ≠ c7b.additions
    ∧ (Part1.handleAddToCart [c7a] c7b).length = 2 := by
  refine ⟨rfl, rfl, rfl, ?_, by decide, ?_⟩
  · exact List.Perm.swap "Chia Seeds" "Protein Powder" []
  · simp [Part1.handleAddToCart, c7a, c7b, Part1.equivItem]

/-- Claim C7 (amended): the merge predicate used by `add` compares the
additions as ordered lists (JSON-stringified arrays), not as sets: merging
requires catalogItemId, size, sweetness and the exact additions list to
agree, so whenever every existing line with matching catalogItemId, size
and sweetness differs in the additions list — e.g. lists the same additions
in a different order — the item is appended as a new line instead of being
merged. -/
theorem claim_C7 (items : List Part1.Item) (item : Part1.Item)
    (h : ∀ i ∈ items, i.juiceId = item.juiceId → i.size = item.size →
        i.sweetness = item.sweetness → i.additions ≠ item.additions) :
    Part1.handleAddToCart items item = items ++ [item] := by
  apply Part1.handleAdd_not_equiv
  intro i hi heq
  obtain ⟨h1, h2, h3, h4⟩ := heq
  exact h i hi h1 h2 h3 h4

/-- Witness for C7 (amended): the permuted-additions item is appended. -/
theorem claim_C7_witness :
    Part1.handleAddToCart [c7a] c7b = [c7a, c7b] :=
  claim_C7 [c7a] c7b (by decide)

/-- A degenerate cart line with a negative price, giving a nonempty cart
whose grand total is negative. -/
def negItem : App2.CItem :=
  { id := "x", name := "Degenerate", price := -10, icon := "",
    category := "Drinks", quantity := 1 }

/-- Counterexample to C4 as stated: on the empty cart `handlePlaceOrder`
takes the guard's early `return` — a silent no-op, not an explicit
`EmptyCheckoutFailure` error value (no error channel is used on that path);
and on a concrete nonempty cart with grand total −10.8 ≤ 0 the guard
(which only tests `grandTotal === 0`) does not fire, so an Order IS created
and appended to the history. -/
theorem claim_C4_cex :
    (App2.handlePlaceOrder [] [] true "user-1" 12345 "t" true).outcome
        = App2.Outcome.silentReturn
    ∧ App2.isExplicitFailure App2.Outcome.silentReturn = false
    ∧ App2.grandTotal [negItem] < 0
    ∧ (App2.handlePlaceOrder [negItem] [] true "user-1" 12345 "t" true).outcome
        = App2.Outcome.placed
    ∧ (App2.handlePlaceOrder [negItem] [] true "user-1" 12345 "t" true).history
        ≠ [] := by
  have htot : App2.grandTotal [negItem] = -108/10 := by
    norm_num [App2.grandTotal, App2.cartSubtotal, App2.taxAmount,
      App2.taxRate, App2.deliveryFee, negItem]
  have hguard : ¬ (([negItem] : List App2.CItem).length = 0
      ∨ App2.grandTotal [negItem] = 0 ∨ (true : Bool) = false) := by
    rw [htot]
    norm_num
  refine ⟨rfl, rfl, ?_, ?_, ?_⟩
  · rw [htot]
    norm_num
  · rw [App2.handlePlaceOrder, if_neg hguard]
    rfl
  · rw [App2.handlePlaceOrder, if_neg hguard]
    simp

/-- Claim C4 (amended): when the cart is empty, or the grand total is
exactly 0, or the database/user session is unavailable, `handlePlaceOrder`
returns early as a silent no-op — no explicit error value is produced, no
Order is created, and both the cart and the order history are left
unchanged.  (A nonempty cart with a negative grand total is not guarded.) -/
theorem claim_C4 (cart : List App2.CItem) (history : List App2.Order)
    (dbReady : Bool) (userId : String) (orderId : ℤ) (now : String)
    (histWriteOk : Bool)
    (h : cart.length = 0 ∨ App2.grandTotal cart = 0 ∨ dbReady = false) :
    App2.handlePlaceOrder cart history dbReady userId orderId now histWriteOk
        = { outcome := .silentReturn, cart := cart, history := history }
    ∧ App2.isExplicitFailure App2.Outcome.silentReturn = false := by
  constructor
  · rw [App2.handlePlaceOrder, if_pos h]
  · rfl

/-- Witness for C4 (amended): checkout on the empty cart is the silent
no-op leaving cart and history unchanged. -/
theorem claim_C4_witness :
    App2.handlePlaceOrder [] [] true "user-1" 12345 "t" true
      = { outcome := .silentReturn, cart := [], history := [] } :=
  (claim_C4 [] [] true "user-1" 12345 "t" true (Or.inl rfl)).1

/-- Counterexample to C5 as stated: when all three write attempts fail, the
delays actually slept are 1s and 2s only — the claimed schedule
1s, 2s, 4s never occurs, because no sleep follows the final attempt. -/
theorem claim_C5_cex :
    (App2.updateCartInDb (fun _ => false)).sleeps = [1000, 2000]
    ∧ (App2.updateCartInDb (fun _ => false)).sleeps ≠ [1000, 2000, 4000] := by
  constructor <;> decide

/-- Claim C5 (amended): a cart write is retried up to a fixed bound of 3
attempts; a failed non-final attempt is followed by a doubling delay of
`1000 * 2 ^ attempt` ms, so the delays between the attempts are 1s and 2s
(no delay follows the final attempt); after all 3 attempts fail a
persistence failure is surfaced to the caller; and the in-memory cart keeps
the optimistic post-mutation value on every path (the write routine never
touches it). -/
theorem claim_C5 :
    (∀ writeOk : ℕ → Bool, (App2.updateCartInDb writeOk).attempts ≤ 3)
    ∧ (∀ writeOk : ℕ → Bool, (∀ k, k < 3 → writeOk k = false) →
        App2.updateCartInDb writeOk
          = { success := false, errorSurfaced := true,
              sleeps := [1000, 2000], attempts := 3 })
    ∧ (∀ (cart : List App2.CItem) (item : App2.CItem) (writeOk : ℕ → Bool),
        (App2.addToCartFlow cart item writeOk).1 = App2.addToCart cart item) := by
  refine ⟨?_, ?_, ?_⟩
  · intro writeOk
    rcases h0 : writeOk 0 <;> rcases h1 : writeOk 1 <;> rcases h2 : writeOk 2 <;>
      simp [App2.updateCartInDb, App2.writeLoop, App2.maxRetries, h0, h1, h2]
  · intro writeOk h
    have h0 := h 0 (by norm_num)
    have h1 := h 1 (by norm_num)
    have h2 := h 2 (by norm_num)
    simp [App2.updateCartInDb, App2.writeLoop, App2.maxRetries, h0, h1, h2]
  · intro cart item writeOk
    rfl

/-- Witness for C5 (amended): with every attempt failing, the caller gets
the surfaced failure after sleeps of exactly 1s and 2s and 3 attempts. -/
theorem claim_C5_witness :
    App2.updateCartInDb (fun _ => false)
      = { success := false, errorSurfaced := true,
          sleeps := [1000, 2000], attempts := 3 } :=
  claim_C5.2.1 (fun _ => false) (fun _ _ => rfl)

/-- Counterexample to C9 as stated: on an `Absent` snapshot the JuiSipApp2
cart listener (one of the two cart subscriptions of the repository)
initializes the empty cart but issues no write at all. -/
theorem claim_C9_cex :
    (App2.onCartSnapshot (Snapshot.absent) ).cart = []
    ∧ (App2.onCartSnapshot (Snapshot.absent) ).writes = [] :=
  ⟨rfl, rfl⟩

/-- Claim C9 (amended): on an `Absent` snapshot for the cart key, both cart
listeners initialize a fresh empty cart and neither treats absence as an
error; the part_001 listener also issues a write establishing the initial
cart document (first-run bootstrap), but the JuiSipApp2 listener issues no
write. -/
theorem claim_C9 (ts : String) :
    (Part1.onCartSnapshot Snapshot.absent ts).cart.items = []
    ∧ (Part1.onCartSnapshot Snapshot.absent ts).writes
        = [{ Part1.initialCartState with lastUpdated := some ts }]
    ∧ (Part1.onCartSnapshot Snapshot.absent ts).errorFlagged = false
    ∧ (App2.onCartSnapshot (Snapshot.absent) ).cart = []
    ∧ (App2.onCartSnapshot (Snapshot.absent) ).writes = []
    ∧ (App2.onCartSnapshot (Snapshot.absent) ).errorFlagged = false :=
  ⟨rfl, rfl, rfl, rfl, rfl, rfl⟩

/-- Witness for C9 (amended), at a concrete timestamp. -/
theorem claim_C9_witness :
    (Part1.onCartSnapshot Snapshot.absent "2024-01-01T00:00:00Z").writes
      = [{ Part1.initialCartState with
            lastUpdated := some "2024-01-01T00:00:00Z" }] :=
  (claim_C9 "2024-01-01T00:00:00Z").2.1
